import Mathlib

/-!
Verification development for the Zomit_API repository (src/app.py).

The core under study is `MobileCoverApp._combine_images` (app.py lines
119-140), which composites a user photo into a chroma-keyed cover
template using OpenCV primitives, together with the surrounding upload
pipeline (`upload_image`, `_process_image`) and the `MobileModel` record
store (`add_model`, `update_model`, `delete_model`).

Raster images are embedded as a dimensions-plus-pixel-function record;
each OpenCV primitive used by the source is given an explicit executable
model in the `cv2` namespace, and the source functions are translated on
top of them, keeping the source names.
-/

namespace ZomitAPI

/-- A pixel: three 8-bit channels, in the channel order of the containing
image (BGR for decoded images, per the cv2.imread convention; HSV for the
converted template). Channels are Nats; a valid 8-bit image has every
channel at most 255. -/
abbrev Pix := Nat × Nat × Nat

/-- RasterImage as handled by the source: a height, a width
(`shape[0]` and `shape[1]` of the numpy array) and the pixel grid. -/
structure Image where
  height : Nat
  width : Nat
  pix : Nat → Nat → Pix

namespace cv2

/-- Floor of a rational number, via flooring integer division. -/
def qfloor (q : ℚ) : Int := q.num.fdiv q.den

/-- Round-half-up of a rational number. -/
def qround (q : ℚ) : Int := qfloor (q + 1 / 2)

/-- One channel of a bilinear sample of `img` for destination size
`w × h` at destination position `(y, x)`: the source coordinate follows
the half-pixel-center convention, the four neighbouring source pixels
are clamped to the image and blended by the fractional weights, and the
result is rounded and saturated to 8 bits. -/
def interp (img : Image) (w h y x : Nat) (ch : Pix → Nat) : Nat :=
  let fx : ℚ := (x + 1 / 2) * img.width / w - 1 / 2
  let fy : ℚ := (y + 1 / 2) * img.height / h - 1 / 2
  let x0 : Nat := min (qfloor (max 0 fx)).toNat (img.width - 1)
  let y0 : Nat := min (qfloor (max 0 fy)).toNat (img.height - 1)
  let x1 : Nat := min (x0 + 1) (img.width - 1)
  let y1 : Nat := min (y0 + 1) (img.height - 1)
  let ax : ℚ := min 1 (max 0 (fx - x0))
  let ay : ℚ := min 1 (max 0 (fy - y0))
  let v : ℚ :=
    (1 - ay) * ((1 - ax) * ch (img.pix y0 x0) + ax * ch (img.pix y0 x1))
      + ay * ((1 - ax) * ch (img.pix y1 x0) + ax * ch (img.pix y1 x1))
  min (qround v).toNat 255

/-- Model of `cv2.resize(img, (w, h))` with the default bilinear
interpolation: the output has exactly the requested dimensions and every
output pixel is a saturated bilinear sample of the source grid (a
stretch over the whole source, not a crop). -/
def resize (img : Image) (w h : Nat) : Image where
  height := h
  width := w
  pix := fun y x =>
    (interp img w h y x (fun p => p.1),
     interp img w h y x (fun p => p.2.1),
     interp img w h y x (fun p => p.2.2))

/-- Per-pixel formula of `cv2.cvtColor(-, cv2.COLOR_BGR2HSV)` for 8-bit
images: V is the channel maximum, S is `255 * (V - min) / V` rounded,
and H is the hue angle in degrees divided by two (so that it fits the
0-179 scale), computed exactly over the integers with round-half-up. -/
def cvtPixBGR2HSV (p : Pix) : Pix :=
  let b := p.1
  let g := p.2.1
  let r := p.2.2
  let v := max r (max g b)
  let mn := min r (min g b)
  let diff := v - mn
  let s := if v = 0 then 0 else (510 * diff + v) / (2 * v)
  let hn : Int :=
    if v = r then 60 * ((g : Int) - (b : Int))
    else if v = g then 120 * (diff : Int) + 60 * ((b : Int) - (r : Int))
    else 240 * (diff : Int) + 60 * ((r : Int) - (g : Int))
  let hn2 : Int := if hn < 0 then hn + 360 * (diff : Int) else hn
  let hh : Nat := if diff = 0 then 0 else ((hn2 + (diff : Int)) / (2 * (diff : Int))).toNat
  (hh, s, v)

/-- Model of `cv2.cvtColor(img, cv2.COLOR_BGR2HSV)`: the per-pixel
conversion applied across the grid; dimensions are unchanged. -/
def cvtColorBGR2HSV (img : Image) : Image :=
  { img with pix := fun y x => cvtPixBGR2HSV (img.pix y x) }

/-- Model of `cv2.inRange(img, lo, hi)`: the mask holds 255 where every
channel lies within the inclusive bounds and 0 elsewhere. -/
def inRange (img : Image) (lo hi : Pix) : Nat → Nat → Nat :=
  fun y x =>
    let p := img.pix y x
    if lo.1 ≤ p.1 ∧ p.1 ≤ hi.1 ∧ lo.2.1 ≤ p.2.1 ∧ p.2.1 ≤ hi.2.1 ∧
        lo.2.2 ≤ p.2.2 ∧ p.2.2 ≤ hi.2.2 then 255 else 0

/-- Model of `cv2.bitwise_not` on an 8-bit mask: complement of each
8-bit value (for `v ≤ 255` the bitwise complement is `255 - v`). -/
def bitwise_not (m : Nat → Nat → Nat) : Nat → Nat → Nat :=
  fun y x => 255 - m y x

/-- Model of `cv2.bitwise_and(src1, src2, mask=m)`: per-channel bitwise
AND where the mask is nonzero, zero (black) elsewhere. -/
def bitwise_and (src1 src2 : Image) (m : Nat → Nat → Nat) : Image :=
  { src1 with
    pix := fun y x =>
      if m y x ≠ 0 then
        ((src1.pix y x).1 &&& (src2.pix y x).1,
         (src1.pix y x).2.1 &&& (src2.pix y x).2.1,
         (src1.pix y x).2.2 &&& (src2.pix y x).2.2)
      else (0, 0, 0) }

/-- Model of `cv2.add`: per-channel saturating addition, clamping at
255. -/
def add (a b : Image) : Image :=
  { a with
    pix := fun y x =>
      (min ((a.pix y x).1 + (b.pix y x).1) 255,
       min ((a.pix y x).2.1 + (b.pix y x).2.1) 255,
       min ((a.pix y x).2.2 + (b.pix y x).2.2) 255) }

end cv2

/-- `lower_green = np.array([35, 100, 100])` (app.py line 128). -/
def lower_green : Pix := (35, 100, 100)

/-- `upper_green = np.array([85, 255, 255])` (app.py line 129). -/
def upper_green : Pix := (85, 255, 255)

/-- The chroma mask of app.py lines 127-130: `cv2.inRange` of the
HSV-converted template against the fixed green bounds. -/
def chromaMask (cover_template : Image) : Nat → Nat → Nat :=
  cv2.inRange (cv2.cvtColorBGR2HSV cover_template) lower_green upper_green

/-- `mask_inv = cv2.bitwise_not(mask)` (app.py line 131). -/
def mask_inv (cover_template : Image) : Nat → Nat → Nat :=
  cv2.bitwise_not (chromaMask cover_template)

/-- `cover_without_green = cv2.bitwise_and(cover_template, cover_template,
mask=mask_inv)` (app.py line 134). -/
def cover_without_green (cover_template : Image) : Image :=
  cv2.bitwise_and cover_template cover_template (mask_inv cover_template)

/-- `user_image_with_green = cv2.bitwise_and(user_image, user_image,
mask=mask)` (app.py line 135), where `user_image` has already been
resized to the template dimensions (line 124). -/
def user_image_with_green (cover_template user_image : Image) : Image :=
  cv2.bitwise_and (cv2.resize user_image cover_template.width cover_template.height)
    (cv2.resize user_image cover_template.width cover_template.height)
    (chromaMask cover_template)

/-- `_combine_images` (app.py lines 119-140) on already-decoded images:
resize the user image to the template dimensions, mask out the green
region of the template, mask in the resized user image there, and add
the two disjoint layers with saturating addition. -/
def _combine_images (cover_template user_image : Image) : Image :=
  cv2.add (cover_without_green cover_template)
    (user_image_with_green cover_template user_image)

/-- The inclusive chroma-range predicate on an HSV pixel: Hue in
[35, 85], Saturation in [100, 255], Value in [100, 255]. This is the
test `cv2.inRange` applies at the constants of app.py lines 128-129. -/
def greenHSV (q : Pix) : Prop :=
  35 ≤ q.1 ∧ q.1 ≤ 85 ∧ 100 ≤ q.2.1 ∧ q.2.1 ≤ 255 ∧ 100 ≤ q.2.2 ∧ q.2.2 ≤ 255

instance (q : Pix) : Decidable (greenHSV q) := by
  unfold greenHSV
  infer_instance

/-- Spec section 4.1 step 7, stated in the words of the spec: a
per-pixel select that takes the (resized) photo pixel where the chroma
mask is true and the template pixel where it is false. Written from the
spec for the refinement comparison, not from the source. -/
def selectComposite (t p : Image) : Image where
  height := t.height
  width := t.width
  pix := fun y x =>
    if chromaMask t y x ≠ 0 then (cv2.resize p t.width t.height).pix y x
    else t.pix y x

/-- The error kind of spec section 7 for undecodable input images. -/
inductive CompositeError where
  | DecodeError
deriving DecidableEq

/-- `_combine_images` at the decode boundary: `cv2.imread` yields no
image on a failed decode (`None`), and the very first uses of the images
(`.shape` on line 124) then raise before any pixel processing, so no
combined image is produced. Modelled with `Option` inputs and an
`Except` result. -/
def _combine_imagesE : Option Image → Option Image → Except CompositeError Image
  | some t, some p => .ok (_combine_images t p)
  | _, _ => .error .DecodeError

/-- The distinct response classes of `upload_image` and
`_process_image` (app.py lines 79-117). -/
inductive UploadStatus where
  | ok
  | errNoImage
  | errInvalidModel
  | errNoFile
  | errTemplateMissing
  | errProcessing
deriving DecidableEq

/-- Observable outcome of an upload request: the response class,
whether the uploaded photo was saved to the upload folder (line 104),
and whether a generated cover was written (line 113). -/
structure UploadOutcome where
  status : UploadStatus
  uploadSaved : Bool
  coverWritten : Bool
deriving DecidableEq

/-- A `MobileModel` record (app.py lines 51-58); `created_at` plays no
role in the claims and is omitted. -/
structure MobileModel where
  id : Nat
  model_name : String
  template_filename : String
deriving DecidableEq

/-- `_process_image` (app.py lines 96-117): the uploaded photo is saved
first (line 104), then the template path is checked, then the images
are decoded and combined; the generated cover is written only when
combining succeeds. -/
def _process_image (templateExists : Bool) (templateImg userImg : Option Image) :
    UploadOutcome :=
  if !templateExists then
    { status := .errTemplateMissing, uploadSaved := true, coverWritten := false }
  else
    match _combine_imagesE templateImg userImg with
    | .error _ => { status := .errProcessing, uploadSaved := true, coverWritten := false }
    | .ok _ => { status := .ok, uploadSaved := true, coverWritten := true }

/-- An upload request as seen by `upload_image`: whether the multipart
field `image` is present, the uploaded filename, the requested model
name, and the decode result of the uploaded photo. -/
structure UploadRequest where
  hasImageField : Bool
  filename : String
  model_name : String
  photo : Option Image

/-- `upload_image` (app.py lines 79-94): reject when the image field is
missing, then look the model up by name and reject unknown models, then
reject an empty filename; only then hand off to `_process_image`. The
model lookup happens before any file is saved. -/
def upload_image (req : UploadRequest) (store : List MobileModel)
    (templateExists : Bool) (templateImg : Option Image) : UploadOutcome :=
  if !req.hasImageField then
    { status := .errNoImage, uploadSaved := false, coverWritten := false }
  else
    match store.find? (fun m => m.model_name == req.model_name) with
    | none => { status := .errInvalidModel, uploadSaved := false, coverWritten := false }
    | some _ =>
      if req.filename = "" then
        { status := .errNoFile, uploadSaved := false, coverWritten := false }
      else _process_image templateExists templateImg req.photo

/-- An upload event for the filename claim: the model it targets, the
UTC timestamp string `%Y%m%d%H%M%S` taken when the request is handled,
and an identifier distinguishing the request itself. -/
structure UploadEvent where
  model_name : String
  timestamp : String
  photoId : Nat
deriving DecidableEq

/-- `generated_cover_filename = f"{model_name}_{timestamp}.png"`
(app.py lines 97-98). -/
def generated_cover_filename (e : UploadEvent) : String :=
  e.model_name ++ "_" ++ e.timestamp ++ ".png"

/-- Truthy update of `template_filename` (app.py lines 208-209: the new
value is applied only when it is present and non-empty). -/
def applyFile (m : MobileModel) : Option String → MobileModel
  | some f => if f = "" then m else { m with template_filename := f }
  | none => m

/-- `add_model` (app.py lines 169-191) at the record-store boundary: a
create is rejected when a record with the same `model_name` already
exists; otherwise the new record is appended. -/
def add_model (store : List MobileModel) (newId : Nat)
    (model_name template_filename : String) : List MobileModel :=
  match store.find? (fun m => m.model_name == model_name) with
  | some _ => store
  | none => store ++ [⟨newId, model_name, template_filename⟩]

/-- `update_model` (app.py lines 193-213): look the record up by id; a
truthy new name is rejected when another record (different id) already
carries it, otherwise it is applied; a truthy new template filename is
applied unconditionally. -/
def update_model (store : List MobileModel) (model_id : Nat)
    (newName newFile : Option String) : List MobileModel :=
  match store.find? (fun m => m.id == model_id) with
  | none => store
  | some _ =>
    match newName with
    | some n =>
      if n = "" then
        store.map fun m => if m.id = model_id then applyFile m newFile else m
      else
        match store.find? (fun m => m.model_name == n) with
        | some existing =>
          if existing.id ≠ model_id then store
          else
            store.map fun m =>
              if m.id = model_id then applyFile { m with model_name := n } newFile
              else m
        | none =>
          store.map fun m =>
            if m.id = model_id then applyFile { m with model_name := n } newFile
            else m
    | none => store.map fun m => if m.id = model_id then applyFile m newFile else m

/-- `delete_model` (app.py lines 215-223): remove the record with the
given primary key when it exists. -/
def delete_model (store : List MobileModel) (model_id : Nat) : List MobileModel :=
  match store.find? (fun m => m.id == model_id) with
  | none => store
  | some _ => store.filter fun m => !(m.id == model_id)

/-- Pairwise distinctness of `model_name` across the store (the
`unique=True` constraint of app.py line 53). -/
def namesDistinct (store : List MobileModel) : Prop :=
  store.Pairwise fun a b => a.model_name ≠ b.model_name

/-- Pairwise distinctness of the primary key `id` (app.py line 52). -/
def idsDistinct (store : List MobileModel) : Prop :=
  store.Pairwise fun a b => a.id ≠ b.id

instance (store : List MobileModel) : Decidable (namesDistinct store) := by
  unfold namesDistinct
  infer_instance

instance (store : List MobileModel) : Decidable (idsDistinct store) := by
  unfold idsDistinct
  infer_instance

/-- A 100 by 100 template whose every pixel is pure green in BGR. -/
def greenImg : Image := ⟨100, 100, fun _ _ => (0, 255, 0)⟩

/-- A 100 by 100 template whose every pixel is pure blue in BGR. -/
def blueImg : Image := ⟨100, 100, fun _ _ => (255, 0, 0)⟩

/-- A 50 by 50 photo whose every pixel is pure red in BGR. -/
def redImg : Image := ⟨50, 50, fun _ _ => (0, 0, 255)⟩

/-! ### Pointwise reduction lemmas for the compositing pipeline -/

lemma add_pix (a b : Image) (y x : Nat) :
    (cv2.add a b).pix y x =
      (min ((a.pix y x).1 + (b.pix y x).1) 255,
       min ((a.pix y x).2.1 + (b.pix y x).2.1) 255,
       min ((a.pix y x).2.2 + (b.pix y x).2.2) 255) := rfl

lemma bitwise_and_pix (s1 s2 : Image) (m : Nat → Nat → Nat) (y x : Nat) :
    (cv2.bitwise_and s1 s2 m).pix y x =
      if m y x ≠ 0 then
        ((s1.pix y x).1 &&& (s2.pix y x).1,
         (s1.pix y x).2.1 &&& (s2.pix y x).2.1,
         (s1.pix y x).2.2 &&& (s2.pix y x).2.2)
      else (0, 0, 0) := rfl

lemma mask_inv_val (t : Image) (y x : Nat) :
    mask_inv t y x = 255 - chromaMask t y x := rfl

/-- The chroma mask holds 255 exactly on the pixels whose HSV conversion
satisfies the inclusive green range, 0 elsewhere. -/
lemma chromaMask_cases (t : Image) (y x : Nat) :
    chromaMask t y x = 255 ∧ greenHSV ((cv2.cvtColorBGR2HSV t).pix y x) ∨
      chromaMask t y x = 0 ∧ ¬ greenHSV ((cv2.cvtColorBGR2HSV t).pix y x) := by
  unfold chromaMask cv2.inRange
  dsimp only
  split
  case isTrue h => exact Or.inl ⟨rfl, h⟩
  case isFalse h => exact Or.inr ⟨rfl, fun hg => h hg⟩

lemma chromaMask_pos (t : Image) (y x : Nat)
    (h : greenHSV ((cv2.cvtColorBGR2HSV t).pix y x)) : chromaMask t y x = 255 := by
  rcases chromaMask_cases t y x with ⟨h1, _⟩ | ⟨_, h2⟩
  · exact h1
  · exact absurd h h2

lemma chromaMask_zero (t : Image) (y x : Nat)
    (h : ¬ greenHSV ((cv2.cvtColorBGR2HSV t).pix y x)) : chromaMask t y x = 0 := by
  rcases chromaMask_cases t y x with ⟨_, h1⟩ | ⟨h2, _⟩
  · exact absurd h1 h
  · exact h2

/-- Every channel produced by the resize model is at most 255 (the
saturating cast of the interpolation). -/
lemma resize_pix_le (p : Image) (w h y x : Nat) :
    ((cv2.resize p w h).pix y x).1 ≤ 255 ∧
      ((cv2.resize p w h).pix y x).2.1 ≤ 255 ∧
      ((cv2.resize p w h).pix y x).2.2 ≤ 255 :=
  ⟨Nat.min_le_right _ _, Nat.min_le_right _ _, Nat.min_le_right _ _⟩

lemma cover_pix_of_mask_zero (t : Image) (y x : Nat)
    (hm : chromaMask t y x = 0) :
    (cover_without_green t).pix y x = t.pix y x := by
  have hinv : mask_inv t y x ≠ 0 := by
    rw [mask_inv_val, hm]
    simp
  show (cv2.bitwise_and t t (mask_inv t)).pix y x = t.pix y x
  rw [bitwise_and_pix, if_pos hinv]
  simp

lemma cover_pix_of_mask_pos (t : Image) (y x : Nat)
    (hm : chromaMask t y x = 255) :
    (cover_without_green t).pix y x = (0, 0, 0) := by
  have hinv : ¬ mask_inv t y x ≠ 0 := by
    rw [mask_inv_val, hm]
    simp
  show (cv2.bitwise_and t t (mask_inv t)).pix y x = (0, 0, 0)
  rw [bitwise_and_pix, if_neg hinv]

lemma user_pix_of_mask_zero (t p : Image) (y x : Nat)
    (hm : chromaMask t y x = 0) :
    (user_image_with_green t p).pix y x = (0, 0, 0) := by
  show (cv2.bitwise_and _ _ (chromaMask t)).pix y x = (0, 0, 0)
  rw [bitwise_and_pix, if_neg]
  rw [hm]
  simp

lemma user_pix_of_mask_pos (t p : Image) (y x : Nat)
    (hm : chromaMask t y x = 255) :
    (user_image_with_green t p).pix y x =
      (cv2.resize p t.width t.height).pix y x := by
  show (cv2.bitwise_and _ _ (chromaMask t)).pix y x = _
  rw [bitwise_and_pix, if_pos (by rw [hm]; simp)]
  simp

/-- The combined pixel where the mask is off: a saturated copy of the
template pixel. -/
lemma combine_pix_of_mask_zero (t p : Image) (y x : Nat)
    (hm : chromaMask t y x = 0) :
    (_combine_images t p).pix y x =
      (min (t.pix y x).1 255, min (t.pix y x).2.1 255, min (t.pix y x).2.2 255) := by
  show (cv2.add (cover_without_green t) (user_image_with_green t p)).pix y x = _
  rw [add_pix, cover_pix_of_mask_zero t y x hm, user_pix_of_mask_zero t p y x hm]
  simp

/-- The combined pixel where the mask is on: exactly the resized photo
pixel (its channels are already saturated to 255 by the resize). -/
lemma combine_pix_of_mask_pos (t p : Image) (y x : Nat)
    (hm : chromaMask t y x = 255) :
    (_combine_images t p).pix y x = (cv2.resize p t.width t.height).pix y x := by
  show (cv2.add (cover_without_green t) (user_image_with_green t p)).pix y x = _
  rw [add_pix, cover_pix_of_mask_pos t y x hm, user_pix_of_mask_pos t p y x hm]
  obtain ⟨h1, h2, h3⟩ := resize_pix_le p t.width t.height y x
  simp [Nat.min_eq_left, h1, h2, h3]

/-! ### Claim theorems -/

/-- C1: at every pixel position of a valid (8-bit) template whose HSV
conversion falls outside the inclusive chroma range Hue in [35, 85],
Saturation in [100, 255], Value in [100, 255], the output of
`_combine_images` equals the template pixel exactly, with no blending. -/
theorem spec_C1 (t p : Image) (y x : Nat)
    (hy : y < t.height) (hx : x < t.width)
    (h8 : (t.pix y x).1 ≤ 255 ∧ (t.pix y x).2.1 ≤ 255 ∧ (t.pix y x).2.2 ≤ 255)
    (hout : ¬ greenHSV ((cv2.cvtColorBGR2HSV t).pix y x)) :
    (_combine_images t p).pix y x = t.pix y x := by
  rw [combine_pix_of_mask_zero t p y x (chromaMask_zero t y x hout)]
  rw [Nat.min_eq_left h8.1, Nat.min_eq_left h8.2.1, Nat.min_eq_left h8.2.2]

/-- Witness for C1: an all-blue template (HSV hue 120, outside the
range) composited with a red photo keeps the blue template pixel. -/
theorem spec_C1_witness :
    (0 < blueImg.height ∧ 0 < blueImg.width ∧
      ((blueImg.pix 0 0).1 ≤ 255 ∧ (blueImg.pix 0 0).2.1 ≤ 255 ∧
        (blueImg.pix 0 0).2.2 ≤ 255) ∧
      ¬ greenHSV ((cv2.cvtColorBGR2HSV blueImg).pix 0 0)) ∧
    (_combine_images blueImg redImg).pix 0 0 = blueImg.pix 0 0 :=
  ⟨⟨by decide, by decide, by decide, by decide⟩,
    spec_C1 blueImg redImg 0 0 (by decide) (by decide) (by decide) (by decide)⟩

/-- C2: at every pixel position of the template whose HSV conversion
falls inside the inclusive chroma range, the output of
`_combine_images` equals the pixel of the user photo resized to the
template dimensions, at that same position, exactly. -/
theorem spec_C2 (t p : Image) (y x : Nat)
    (hy : y < t.height) (hx : x < t.width)
    (hin : greenHSV ((cv2.cvtColorBGR2HSV t).pix y x)) :
    (_combine_images t p).pix y x = (cv2.resize p t.width t.height).pix y x :=
  combine_pix_of_mask_pos t p y x (chromaMask_pos t y x hin)

/-- Witness for C2: an all-green template (HSV (60, 255, 255), inside
the range) composited with a red photo yields the resized photo pixel. -/
theorem spec_C2_witness :
    (0 < greenImg.height ∧ 0 < greenImg.width ∧
      greenHSV ((cv2.cvtColorBGR2HSV greenImg).pix 0 0)) ∧
    (_combine_images greenImg redImg).pix 0 0 =
      (cv2.resize redImg greenImg.width greenImg.height).pix 0 0 :=
  ⟨⟨by decide, by decide, by decide⟩,
    spec_C2 greenImg redImg 0 0 (by decide) (by decide) (by decide)⟩

/-- C3: the image returned by `_combine_images` has exactly the
template's width and height, whatever the photo's dimensions, and the
user photo is resized (stretched by `cv2.resize`, not cropped) to
exactly the template dimensions before masking. -/
theorem spec_C3 (t p : Image) :
    (_combine_images t p).width = t.width ∧
      (_combine_images t p).height = t.height ∧
      (cv2.resize p t.width t.height).width = t.width ∧
      (cv2.resize p t.width t.height).height = t.height :=
  ⟨rfl, rfl, rfl, rfl⟩

/-- C4: a template pixel's mask value is 255 (true) exactly when all
three components of its HSV conversion lie within the inclusive bounds
Hue in [35, 85], Saturation in [100, 255], Value in [100, 255], and 0
(false) exactly otherwise. -/
theorem spec_C4 (t : Image) (y x : Nat) :
    (chromaMask t y x = 255 ↔ greenHSV ((cv2.cvtColorBGR2HSV t).pix y x)) ∧
      (chromaMask t y x = 0 ↔ ¬ greenHSV ((cv2.cvtColorBGR2HSV t).pix y x)) := by
  rcases chromaMask_cases t y x with ⟨h1, h2⟩ | ⟨h1, h2⟩
  · refine ⟨⟨fun _ => h2, fun _ => h1⟩, ?_, fun hn => absurd h2 hn⟩
    intro h0
    rw [h1] at h0
    exact absurd h0 (by decide)
  · refine ⟨⟨?_, fun hg => absurd hg h2⟩, ⟨fun _ => h2, fun _ => h1⟩⟩
    intro h255
    rw [h1] at h255
    exact absurd h255 (by decide)

/-- C5: the saturating addition of the two masked layers coincides, at
every position of a valid (8-bit) template, with the per-pixel select
of the spec (photo pixel where the chroma mask is true, template pixel
where it is false), and the two images have the same dimensions. -/
theorem spec_C5 (t p : Image) (y x : Nat)
    (h8 : (t.pix y x).1 ≤ 255 ∧ (t.pix y x).2.1 ≤ 255 ∧ (t.pix y x).2.2 ≤ 255) :
    (_combine_images t p).pix y x = (selectComposite t p).pix y x ∧
      (_combine_images t p).width = (selectComposite t p).width ∧
      (_combine_images t p).height = (selectComposite t p).height := by
  refine ⟨?_, rfl, rfl⟩
  have hsel : (selectComposite t p).pix y x =
      if chromaMask t y x ≠ 0 then (cv2.resize p t.width t.height).pix y x
      else t.pix y x := rfl
  rcases chromaMask_cases t y x with ⟨hm, _⟩ | ⟨hm, _⟩
  · rw [combine_pix_of_mask_pos t p y x hm, hsel, if_pos (by rw [hm]; simp)]
  · rw [combine_pix_of_mask_zero t p y x hm, hsel, if_neg (by rw [hm]; simp)]
    rw [Nat.min_eq_left h8.1, Nat.min_eq_left h8.2.1, Nat.min_eq_left h8.2.2]

/-- Witness for C5: the equivalence evaluated on the all-green template
and the red photo at position (0, 0). -/
theorem spec_C5_witness :
    ((greenImg.pix 0 0).1 ≤ 255 ∧ (greenImg.pix 0 0).2.1 ≤ 255 ∧
      (greenImg.pix 0 0).2.2 ≤ 255) ∧
    (_combine_images greenImg redImg).pix 0 0 =
      (selectComposite greenImg redImg).pix 0 0 :=
  ⟨by decide, (spec_C5 greenImg redImg 0 0 (by decide)).1⟩

/-- C6: at every position exactly one of the chroma mask (value 255)
and the inverse mask holds, and at least one of the two masked layers
is the zero pixel there, so the layers never both contribute. -/
theorem spec_C6 (t p : Image) (y x : Nat) :
    ((chromaMask t y x = 255 ∧ mask_inv t y x = 0) ∨
      (chromaMask t y x = 0 ∧ mask_inv t y x = 255)) ∧
      ((cover_without_green t).pix y x = (0, 0, 0) ∨
        (user_image_with_green t p).pix y x = (0, 0, 0)) := by
  rcases chromaMask_cases t y x with ⟨hm, _⟩ | ⟨hm, _⟩
  · exact ⟨Or.inl ⟨hm, by rw [mask_inv_val, hm]⟩,
      Or.inl (cover_pix_of_mask_pos t y x hm)⟩
  · exact ⟨Or.inr ⟨hm, by rw [mask_inv_val, hm]⟩,
      Or.inr (user_pix_of_mask_zero t p y x hm)⟩

/-- C7: when either input image fails to decode, the compositing
operation fails with `DecodeError` and `_process_image` writes no
generated cover (the processing error response is returned instead). -/
theorem spec_C7 (t p : Option Image) (h : t = none ∨ p = none) :
    _combine_imagesE t p = .error .DecodeError ∧
      (_process_image true t p).coverWritten = false ∧
      (_process_image true t p).status = .errProcessing := by
  have he : _combine_imagesE t p = .error .DecodeError := by
    rcases h with h | h
    · subst h
      cases p <;> rfl
    · subst h
      cases t <;> rfl
  refine ⟨he, ?_, ?_⟩ <;> simp [_process_image, he]

/-- Witness for C7: a template that fails to decode aborts the pipeline
with `DecodeError`. -/
theorem spec_C7_witness :
    ((none : Option Image) = none ∨ (some redImg : Option Image) = none) ∧
      _combine_imagesE none (some redImg) = .error .DecodeError :=
  ⟨Or.inl rfl, (spec_C7 none (some redImg) (Or.inl rfl)).1⟩

/-- C10: an upload request whose model name matches no stored record is
rejected before any file write: the photo is not saved to the upload
folder, no cover is generated, and (when the image field is present)
the response is the invalid-model error. -/
theorem spec_C10 (req : UploadRequest) (store : List MobileModel)
    (templateExists : Bool) (templateImg : Option Image)
    (h : ∀ m ∈ store, m.model_name ≠ req.model_name) :
    (upload_image req store templateExists templateImg).uploadSaved = false ∧
      (upload_image req store templateExists templateImg).coverWritten = false ∧
      (req.hasImageField = true →
        (upload_image req store templateExists templateImg).status =
          .errInvalidModel) := by
  have hf : store.find? (fun m => m.model_name == req.model_name) = none := by
    rw [List.find?_eq_none]
    intro m hm
    simp [h m hm]
  cases hb : req.hasImageField with
  | true => simp [upload_image, hb, hf]
  | false => simp [upload_image, hb]

/-- Witness for C10: the store knows only the model named iphone, the
request asks for pixel, and nothing is written. -/
theorem spec_C10_witness :
    (∀ m ∈ [MobileModel.mk 1 "iphone" "iphone.png"],
        m.model_name ≠ (UploadRequest.mk true "a.png" "pixel" (some redImg)).model_name) ∧
      (upload_image ⟨true, "a.png", "pixel", some redImg⟩
          [MobileModel.mk 1 "iphone" "iphone.png"] true (some greenImg)).uploadSaved =
        false ∧
      (upload_image ⟨true, "a.png", "pixel", some redImg⟩
          [MobileModel.mk 1 "iphone" "iphone.png"] true (some greenImg)).coverWritten =
        false :=
  ⟨by decide,
    (spec_C10 ⟨true, "a.png", "pixel", some redImg⟩ [MobileModel.mk 1 "iphone" "iphone.png"]
        true (some greenImg) (by decide)).1,
    (spec_C10 ⟨true, "a.png", "pixel", some redImg⟩ [MobileModel.mk 1 "iphone" "iphone.png"]
        true (some greenImg) (by decide)).2.1⟩

/-- C8 as stated is false: two distinct upload requests for the same
model handled within the same second (the timestamp has one-second
resolution) receive identical generated-cover filenames. -/
theorem spec_C8_counterexample :
    UploadEvent.mk "iphone" "20261012120000" 0 ≠
        UploadEvent.mk "iphone" "20261012120000" 1 ∧
      generated_cover_filename ⟨"iphone", "20261012120000", 0⟩ =
        generated_cover_filename ⟨"iphone", "20261012120000", 1⟩ :=
  ⟨by decide, rfl⟩

/-- C8 amended: two upload requests receive distinct generated-cover
filenames whenever they differ in model name or in the handling
timestamp (a 14-character second-resolution string); only requests with
the same model in the same second collide. -/
theorem spec_C8_amended (e1 e2 : UploadEvent)
    (h1 : e1.timestamp.length = 14) (h2 : e2.timestamp.length = 14)
    (hne : e1.model_name ≠ e2.model_name ∨ e1.timestamp ≠ e2.timestamp) :
    generated_cover_filename e1 ≠ generated_cover_filename e2 := by
  intro heq
  have hd := congrArg String.data heq
  simp only [generated_cover_filename, String.data_append] at hd
  have hl : e1.timestamp.data.length = e2.timestamp.data.length := h1.trans h2.symm
  obtain ⟨h3, -⟩ := List.append_inj' hd rfl
  obtain ⟨h4, hts⟩ := List.append_inj' h3 hl
  obtain ⟨hm, -⟩ := List.append_inj' h4 rfl
  rcases hne with hne | hne
  · exact hne (String.ext hm)
  · exact hne (String.ext hts)

/-- Witness for the amended C8: same model, timestamps one second
apart, distinct filenames. -/
theorem spec_C8_amended_witness :
    (("20261012120000" : String).length = 14 ∧
      ("20261012120001" : String).length = 14 ∧
      (("iphone" : String) ≠ "iphone" ∨
        ("20261012120000" : String) ≠ "20261012120001")) ∧
      generated_cover_filename ⟨"iphone", "20261012120000", 0⟩ ≠
        generated_cover_filename ⟨"iphone", "20261012120001", 0⟩ :=
  ⟨⟨by decide, by decide, Or.inr (by decide)⟩,
    spec_C8_amended ⟨"iphone", "20261012120000", 0⟩ ⟨"iphone", "20261012120001", 0⟩
      (by decide) (by decide) (Or.inr (by decide))⟩

/-! ### Record store lemmas -/

lemma applyFile_name (m : MobileModel) (f : Option String) :
    (applyFile m f).model_name = m.model_name := by
  cases f with
  | none => rfl
  | some s =>
    show (if s = "" then m else { m with template_filename := s }).model_name =
      m.model_name
    split <;> rfl

/-- A map that keeps every record's name keeps the names pairwise
distinct. -/
lemma namesDistinct_map_of_name_eq {s : List MobileModel} {g : MobileModel → MobileModel}
    (hg : ∀ m, (g m).model_name = m.model_name) (h : namesDistinct s) :
    namesDistinct (s.map g) := by
  unfold namesDistinct at h ⊢
  rw [List.pairwise_map]
  exact h.imp (fun hab => by rw [hg, hg]; exact hab)

/-- Renaming the record with a given primary key to a name carried by
no other record keeps the names pairwise distinct. -/
lemma namesDistinct_rename (s : List MobileModel) (model_id : Nat) (n : String)
    (nf : Option String) (hids : idsDistinct s) (hnames : namesDistinct s)
    (H : ∀ m ∈ s, m.model_name = n → m.id = model_id) :
    namesDistinct (s.map fun m =>
      if m.id = model_id then applyFile { m with model_name := n } nf else m) := by
  unfold namesDistinct at hnames ⊢
  unfold idsDistinct at hids
  rw [List.pairwise_map]
  refine List.Pairwise.imp_of_mem ?_ (hids.and hnames)
  intro a b ha hb hab
  by_cases haid : a.id = model_id <;> by_cases hbid : b.id = model_id
  · exact absurd (haid.trans hbid.symm) hab.1
  · rw [if_pos haid, if_neg hbid, applyFile_name]
    show n ≠ b.model_name
    intro hbn
    exact hbid (H b hb hbn.symm)
  · rw [if_pos hbid, if_neg haid, applyFile_name]
    show a.model_name ≠ n
    intro han
    exact haid (H a ha han)
  · rw [if_neg haid, if_neg hbid]
    exact hab.2

/-- In a store with pairwise-distinct names, two records carrying the
same name are the same record. -/
lemma name_unique {s : List MobileModel} (hnames : namesDistinct s)
    {a b : MobileModel} (ha : a ∈ s) (hb : b ∈ s)
    (hn : a.model_name = b.model_name) : a = b := by
  by_contra hne
  have hsym : Symmetric (fun a b : MobileModel => a.model_name ≠ b.model_name) :=
    fun _ _ h => Ne.symm h
  exact (List.Pairwise.forall hsym hnames) ha hb hne hn

/-- C9: starting from a store with pairwise-distinct primary keys and
pairwise-distinct model names, each of `add_model`, `update_model` and
`delete_model` preserves the pairwise distinctness of `model_name`,
because a create or rename that would duplicate an existing name is
rejected. -/
theorem spec_C9 (store : List MobileModel)
    (hids : idsDistinct store) (hnames : namesDistinct store)
    (newId model_id : Nat) (name fname : String) (newName newFile : Option String) :
    namesDistinct (add_model store newId name fname) ∧
      namesDistinct (update_model store model_id newName newFile) ∧
      namesDistinct (delete_model store model_id) := by
  refine ⟨?_, ?_, ?_⟩
  · unfold add_model
    cases hf : store.find? (fun m => m.model_name == name) with
    | some m => exact hnames
    | none =>
      have hno : ∀ m ∈ store, m.model_name ≠ name := by
        intro m hm
        simpa using List.find?_eq_none.1 hf m hm
      unfold namesDistinct at hnames ⊢
      rw [List.pairwise_append]
      refine ⟨hnames, by simp, ?_⟩
      intro a ha b hb
      simp only [List.mem_singleton] at hb
      subst hb
      exact hno a ha
  · have hkeep : ∀ nf : Option String,
        namesDistinct (store.map fun m =>
          if m.id = model_id then applyFile m nf else m) := by
      intro nf
      refine namesDistinct_map_of_name_eq (fun m => ?_) hnames
      by_cases h : m.id = model_id
      · rw [if_pos h, applyFile_name]
      · rw [if_neg h]
    unfold update_model
    split
    · exact hnames
    · split
      · rename_i n
        split
        · exact hkeep newFile
        · split
          · rename_i existing hfn
            split
            · exact hnames
            · rename_i hexid
              have hexid2 : existing.id = model_id := not_not.1 hexid
              have hexmem := List.mem_of_find?_eq_some hfn
              have hexname : existing.model_name = n := by
                simpa using List.find?_some hfn
              refine namesDistinct_rename store model_id n newFile hids hnames ?_
              intro m hm hmn
              have hme : m = existing :=
                name_unique hnames hm hexmem (hmn.trans hexname.symm)
              rw [hme]
              exact hexid2
          · rename_i hfn
            refine namesDistinct_rename store model_id n newFile hids hnames ?_
            intro m hm hmn
            exact absurd hmn (by simpa using List.find?_eq_none.1 hfn m hm)
      · exact hkeep newFile
  · unfold delete_model
    cases store.find? (fun m => m.id == model_id) with
    | none => exact hnames
    | some m => exact List.Pairwise.sublist (List.filter_sublist _) hnames

/-- Witness for C9: a two-record store with distinct ids and names,
exercised by an add of an existing name, a rename onto an existing
name, and a delete. -/
theorem spec_C9_witness :
    (idsDistinct [MobileModel.mk 1 "a" "a.png", ⟨2, "b", "b.png"⟩] ∧
      namesDistinct [MobileModel.mk 1 "a" "a.png", ⟨2, "b", "b.png"⟩]) ∧
      namesDistinct (add_model [MobileModel.mk 1 "a" "a.png", ⟨2, "b", "b.png"⟩] 3 "a" "x.png") ∧
      namesDistinct (update_model [MobileModel.mk 1 "a" "a.png", ⟨2, "b", "b.png"⟩] 1
        (some "b") none) ∧
      namesDistinct (delete_model [MobileModel.mk 1 "a" "a.png", ⟨2, "b", "b.png"⟩] 1) :=
  ⟨⟨by decide, by decide⟩,
    spec_C9 [MobileModel.mk 1 "a" "a.png", ⟨2, "b", "b.png"⟩] (by decide) (by decide)
      3 1 "a" "x.png" (some "b") none⟩

end ZomitAPI
